import Mathlib

/-!
Shallow embedding of the StudySwap marketplace (src/main.py, src/models.py).

Modelling conventions: Python floats (prices, earnings, ratings) are
rationals; SQLAlchemy rows are records in lists; the ORM session is a pair
of committed/pending database states, with `flush` writing to the pending
state and `commit` publishing it, matching flask-sqlalchemy's transactional
behaviour together with the application's 500 handler, which rolls the
session back on any error.  Timestamps and fields no modelled operation
reads are omitted.  Foreign keys are `Nat` identifiers; the lookups that
the schema's foreign-key constraints make total are given a default value
that no theorem relies on.
-/

deriving instance DecidableEq for Except

namespace StudySwap

structure User where
  id : Nat
  total_earnings : ℚ
  is_admin : Bool
  cart : List Nat
deriving DecidableEq

structure StudyMaterial where
  id : Nat
  title : String
  description : String
  price : ℚ
  file_path : String
  file_type : String
  downloads : Nat
  rating : ℚ
  rating_count : Nat
  is_active : Bool
  seller_id : Nat
deriving DecidableEq

structure Review where
  id : Nat
  rating : Int
  comment : String
  material_id : Nat
  reviewer_id : Nat
  seller_id : Nat
deriving DecidableEq

structure Order where
  id : Nat
  order_number : String
  total_amount : ℚ
  status : String
  payment_method : String
  buyer_id : Nat
deriving DecidableEq

structure OrderItem where
  id : Nat
  price : ℚ
  order_id : Nat
  material_id : Nat
  download_count : Nat
deriving DecidableEq

structure DB where
  users : List User
  materials : List StudyMaterial
  reviews : List Review
  orders : List Order
  order_items : List OrderItem
  next_order_id : Nat
  next_order_item_id : Nat
  next_review_id : Nat
deriving DecidableEq

def findUser (db : DB) (uid : Nat) : Option User :=
  db.users.find? (fun u => u.id == uid)

def findMaterial (db : DB) (mid : Nat) : Option StudyMaterial :=
  db.materials.find? (fun m => m.id == mid)

def cartOf (db : DB) (uid : Nat) : List Nat :=
  ((findUser db uid).map User.cart).getD []

def materialPrice (db : DB) (mid : Nat) : ℚ :=
  ((findMaterial db mid).map StudyMaterial.price).getD 0

def sellerOf (db : DB) (mid : Nat) : Nat :=
  ((findMaterial db mid).map StudyMaterial.seller_id).getD 0

def userEarnings (db : DB) (uid : Nat) : ℚ :=
  ((findUser db uid).map User.total_earnings).getD 0

def isAdmin (db : DB) (uid : Nat) : Bool :=
  ((findUser db uid).map User.is_admin).getD false

def updateUser (db : DB) (uid : Nat) (f : User → User) : DB :=
  { db with users := db.users.map (fun u => if u.id == uid then f u else u) }

def updateMaterial (db : DB) (mid : Nat) (f : StudyMaterial → StudyMaterial) : DB :=
  { db with materials := db.materials.map (fun m => if m.id == mid then f m else m) }

/-- `add_to_cart` from src/main.py: reject the material's own seller, report
an already-present material, otherwise append the membership row. -/
inductive CartResult where
  | notFound
  | selfPurchase
  | alreadyInCart
  | added
deriving DecidableEq

def add_to_cart (db : DB) (uid mid : Nat) : CartResult × DB :=
  match findMaterial db mid with
  | none => (CartResult.notFound, db)
  | some material =>
    if material.seller_id == uid then (CartResult.selfPurchase, db)
    else if (cartOf db uid).contains mid then (CartResult.alreadyInCart, db)
    else (CartResult.added, updateUser db uid (fun u => { u with cart := u.cart ++ [mid] }))

/-- Order-number generation in `checkout`: `f"SS-{uuid.uuid4().hex[:8].upper()}"`,
with the random UUID hex string taken as an input. -/
def genOrderNumber (uuidHex : String) : String :=
  "SS-" ++ String.mk ((uuidHex.data.take 8).map Char.toUpper)

/-- The Order record `checkout` constructs before the item loop. -/
def checkoutOrder (db : DB) (uid : Nat) (uuidHex : String) : Order :=
  { id := db.next_order_id
    order_number := genOrderNumber uuidHex
    total_amount := ((cartOf db uid).map (materialPrice db)).sum
    status := "completed"
    payment_method := "card"
    buyer_id := uid }

inductive CheckoutError where
  | emptyCart
  | integrityError
deriving DecidableEq

/-- The single ORM statements `checkout` issues, in program order.
`addOrderItem` carries the autoincrement item id, the order id and the
material id; prices and sellers are read from the session state when the
statement executes, exactly as the loop body reads `material.price` and
`material.seller` live. -/
inductive SessionAction where
  | addOrder : Order → SessionAction
  | flush : SessionAction
  | addOrderItem : Nat → Nat → Nat → SessionAction
  | bumpDownloads : Nat → SessionAction
  | creditSeller : Nat → SessionAction
  | clearCart : Nat → SessionAction
  | commit : SessionAction
deriving DecidableEq

def addItemStep (p : DB) (iid oid mid : Nat) : DB :=
  { p with
    order_items := p.order_items ++
      [{ id := iid, price := materialPrice p mid, order_id := oid,
         material_id := mid, download_count := 0 }],
    next_order_item_id := p.next_order_item_id + 1 }

def bumpStep (p : DB) (mid : Nat) : DB :=
  updateMaterial p mid (fun m => { m with downloads := m.downloads + 1 })

def creditStep (p : DB) (mid : Nat) : DB :=
  updateUser p (sellerOf p mid)
    (fun u => { u with total_earnings := u.total_earnings + materialPrice p mid * (4 / 5) })

def clearCartStep (p : DB) (uid : Nat) : DB :=
  updateUser p uid (fun u => { u with cart := [] })

def applyAction (p : DB) : SessionAction → Except CheckoutError DB
  | SessionAction.addOrder o =>
    if p.orders.any (fun o2 => o2.order_number == o.order_number) then
      Except.error CheckoutError.integrityError
    else
      Except.ok { p with orders := p.orders ++ [o], next_order_id := p.next_order_id + 1 }
  | SessionAction.flush => Except.ok p
  | SessionAction.addOrderItem iid oid mid => Except.ok (addItemStep p iid oid mid)
  | SessionAction.bumpDownloads mid => Except.ok (bumpStep p mid)
  | SessionAction.creditSeller mid => Except.ok (creditStep p mid)
  | SessionAction.clearCart uid => Except.ok (clearCartStep p uid)
  | SessionAction.commit => Except.ok p

/-- An ORM session: the committed (externally observable) state and the
pending in-transaction state. -/
structure Session where
  committed : DB
  pending : DB
deriving DecidableEq

/-- Run a list of session actions: non-commit actions mutate the pending
state, `commit` publishes it, and the first error aborts the run (the 500
handler then rolls the session back, so the committed state stands). -/
def runScript (s : Session) : List SessionAction → Session × Option CheckoutError
  | [] => (s, none)
  | a :: rest =>
    match a with
    | SessionAction.commit => runScript { committed := s.pending, pending := s.pending } rest
    | _ =>
      match applyAction s.pending a with
      | Except.ok p => runScript { committed := s.committed, pending := p } rest
      | Except.error e => (s, some e)

/-- The per-cart-item statements of the checkout loop: create the OrderItem
at the material's current price, increment the material's downloads, credit
its seller 80% of the price. -/
def itemActions (oid : Nat) : Nat → List Nat → List SessionAction
  | _, [] => []
  | fid, mid :: rest =>
    SessionAction.addOrderItem fid oid mid :: SessionAction.bumpDownloads mid ::
      SessionAction.creditSeller mid :: itemActions oid (fid + 1) rest

/-- The full statement list of one POST `checkout` request, from
src/main.py lines 465-494. -/
def checkoutScript (db : DB) (uid : Nat) (uuidHex : String) : List SessionAction :=
  SessionAction.addOrder (checkoutOrder db uid uuidHex) :: SessionAction.flush ::
    itemActions db.next_order_id db.next_order_item_id (cartOf db uid)
      ++ [SessionAction.clearCart uid, SessionAction.commit]

def checkoutRun (db : DB) (uid : Nat) (uuidHex : String) : Session × Option CheckoutError :=
  if cartOf db uid = [] then ({ committed := db, pending := db }, some CheckoutError.emptyCart)
  else runScript { committed := db, pending := db } (checkoutScript db uid uuidHex)

/-- `checkout` from src/main.py: empty-cart guard, then the transactional
script; on success the committed state is returned. -/
def checkout (db : DB) (uid : Nat) (uuidHex : String) : Except CheckoutError DB :=
  match checkoutRun db uid uuidHex with
  | (s, none) => Except.ok s.committed
  | (_, some e) => Except.error e

/-- The externally observable state when a failure interrupts the checkout
transaction after its first `k` statements: the 500 handler rolls the
session back, so only the committed state remains. -/
def checkoutFailingAfter (db : DB) (uid : Nat) (uuidHex : String) (k : Nat) : DB :=
  if cartOf db uid = [] then db
  else ((runScript { committed := db, pending := db } ((checkoutScript db uid uuidHex).take k)).1).committed

/-- The purchased-item lookup shared by `download_material` and
`add_review`: an OrderItem for this material inside a completed order of
this buyer. -/
def findPurchaseItem (db : DB) (uid mid : Nat) : Option OrderItem :=
  db.order_items.find? (fun oi =>
    oi.material_id == mid &&
      db.orders.any (fun o => o.id == oi.order_id && o.buyer_id == uid && o.status == "completed"))

/-- The access predicate of `download_material`: seller ownership or a
completed purchase. -/
def has_access (db : DB) (uid mid : Nat) : Bool :=
  match findMaterial db mid with
  | none => false
  | some m => m.seller_id == uid || (findPurchaseItem db uid mid).isSome

inductive DownloadResult where
  | notFound
  | accessDenied
  | served : String → String → DownloadResult
deriving DecidableEq

/-- `download_material` from src/main.py: sellers are served directly;
otherwise a completed purchase is required, and serving through a purchase
increments that OrderItem's download counter. -/
def download_material (db : DB) (uid mid : Nat) : DownloadResult × DB :=
  match findMaterial db mid with
  | none => (DownloadResult.notFound, db)
  | some material =>
    if material.seller_id == uid then
      (DownloadResult.served material.file_path (material.title ++ "." ++ material.file_type), db)
    else
      match findPurchaseItem db uid mid with
      | some oi =>
        (DownloadResult.served material.file_path (material.title ++ "." ++ material.file_type),
          { db with
            order_items := db.order_items.map (fun x =>
              if x.id == oi.id then { x with download_count := x.download_count + 1 } else x) })
      | none => (DownloadResult.accessDenied, db)

/-- `StudyMaterial.update_rating` from src/models.py: recompute the mean
rating and the review count from the material's reviews. -/
def update_rating (db : DB) (mid : Nat) : DB :=
  let reviews := db.reviews.filter (fun r => r.material_id == mid)
  if reviews.isEmpty then
    updateMaterial db mid (fun m => { m with rating := 0, rating_count := 0 })
  else
    updateMaterial db mid (fun m =>
      { m with
        rating := (reviews.map (fun r => (r.rating : ℚ))).sum / reviews.length
        rating_count := reviews.length })

inductive ReviewResult where
  | notFound
  | notEntitled
  | duplicateReview
  | invalidRating
  | added
deriving DecidableEq

/-- `add_review` from src/main.py: entitlement is a completed purchase
only, then the duplicate check, then rating validation (a missing form
value or a value outside 1..5 is rejected), then the insert followed by
`update_rating`. -/
def add_review (db : DB) (uid mid : Nat) (rating : Option Int) (comment : String) :
    ReviewResult × DB :=
  match findMaterial db mid with
  | none => (ReviewResult.notFound, db)
  | some material =>
    match findPurchaseItem db uid mid with
    | none => (ReviewResult.notEntitled, db)
    | some _ =>
      match db.reviews.find? (fun r => r.material_id == mid && r.reviewer_id == uid) with
      | some _ => (ReviewResult.duplicateReview, db)
      | none =>
        match rating with
        | none => (ReviewResult.invalidRating, db)
        | some v =>
          if v < 1 || 5 < v then (ReviewResult.invalidRating, db)
          else
            let review : Review :=
              { id := db.next_review_id, rating := v, comment := comment,
                material_id := mid, reviewer_id := uid, seller_id := material.seller_id }
            let db1 :=
              { db with reviews := db.reviews ++ [review], next_review_id := db.next_review_id + 1 }
            (ReviewResult.added, update_rating db1 mid)

inductive EditResult where
  | notFound
  | forbidden
  | updated
deriving DecidableEq

/-- `edit_material` from src/main.py: only the material's seller or an
admin may edit; the editable fields include the price, with no validation. -/
def edit_material (db : DB) (uid mid : Nat) (title description : String) (price : ℚ) :
    EditResult × DB :=
  match findMaterial db mid with
  | none => (EditResult.notFound, db)
  | some material =>
    if material.seller_id != uid && !isAdmin db uid then (EditResult.forbidden, db)
    else
      (EditResult.updated,
        updateMaterial db mid (fun m =>
          { m with title := title, description := description, price := price }))

/-- `delete_material` from src/main.py: soft delete, only flips
`is_active` to false. -/
def delete_material (db : DB) (uid mid : Nat) : EditResult × DB :=
  match findMaterial db mid with
  | none => (EditResult.notFound, db)
  | some material =>
    if material.seller_id != uid && !isAdmin db uid then (EditResult.forbidden, db)
    else (EditResult.updated, updateMaterial db mid (fun m => { m with is_active := false }))

/-! ### Derived descriptions of the checkout transaction -/

/-- The pending state after the item loop: the net effect of the three
statements per cart entry. -/
def processItems : DB → Nat → Nat → List Nat → DB
  | p, _, _, [] => p
  | p, oid, fid, mid :: rest =>
    processItems (creditStep (bumpStep (addItemStep p fid oid mid) mid) mid) oid (fid + 1) rest

/-- The OrderItems the loop creates, priced from the given state. -/
def mkItems (p : DB) (oid : Nat) : Nat → List Nat → List OrderItem
  | _, [] => []
  | fid, mid :: rest =>
    { id := fid, price := materialPrice p mid, order_id := oid, material_id := mid,
      download_count := 0 } :: mkItems p oid (fid + 1) rest

/-- The pending state right after the Order insert is flushed. -/
def pendingAfterOrder (db : DB) (uid : Nat) (uuidHex : String) : DB :=
  { db with orders := db.orders ++ [checkoutOrder db uid uuidHex],
            next_order_id := db.next_order_id + 1 }

/-- The committed state of a successful checkout. -/
def checkoutResult (db : DB) (uid : Nat) (uuidHex : String) : DB :=
  clearCartStep
    (processItems (pendingAfterOrder db uid uuidHex) db.next_order_id db.next_order_item_id
      (cartOf db uid)) uid

/-- The checkout script without its final `commit`. -/
def checkoutBody (db : DB) (uid : Nat) (uuidHex : String) : List SessionAction :=
  SessionAction.addOrder (checkoutOrder db uid uuidHex) :: SessionAction.flush ::
    itemActions db.next_order_id db.next_order_item_id (cartOf db uid)
      ++ [SessionAction.clearCart uid]

/-! ### Rating and review invariants -/

/-- The reviews associated with one material, as `StudyMaterial.reviews`
resolves them. -/
def materialReviews (db : DB) (mid : Nat) : List Review :=
  db.reviews.filter (fun r => r.material_id == mid)

/-- The §3 invariant for one material: `rating` is the arithmetic mean of
its reviews' ratings (0 when none exist) and `rating_count` their number. -/
def ratingOk (db : DB) (m : StudyMaterial) : Prop :=
  (m.rating = if (materialReviews db m.id).isEmpty then 0
    else ((materialReviews db m.id).map (fun r => (r.rating : ℚ))).sum /
      (materialReviews db m.id).length)
  ∧ m.rating_count = (materialReviews db m.id).length

def ratingInvariant (db : DB) : Prop := ∀ m ∈ db.materials, ratingOk db m

/-- A sequence of `add_review` requests: reviewer, material, rating, comment. -/
def applyReviews (db : DB) : List (Nat × Nat × Option Int × String) → DB
  | [] => db
  | (uid, mid, r, c) :: rest => applyReviews (add_review db uid mid r c).2 rest

/-- The reviews a given reviewer left on a given material. -/
def reviewsBy (db : DB) (mid uid : Nat) : List Review :=
  db.reviews.filter (fun r => r.material_id == mid && r.reviewer_id == uid)

/-- At most one review per (material, reviewer) pair exists. -/
def atMostOneReview (db : DB) : Prop := ∀ mid uid, (reviewsBy db mid uid).length ≤ 1

/-! ### Concrete states used to exercise the theorems -/

/-- A small marketplace: Alice (id 1) sells material 10 (price 10) and the
soft-deleted material 11; Bob (id 2) has bought material 10 through
completed order 100, has reviewed it, and has material 10 in his cart. -/
def exA : DB :=
  { users :=
      [{ id := 1, total_earnings := 0, is_admin := false, cart := [] },
       { id := 2, total_earnings := 0, is_admin := false, cart := [10] }]
    materials :=
      [{ id := 10, title := "Algebra Notes", description := "notes", price := 10,
         file_path := "a.pdf", file_type := "pdf", downloads := 1, rating := 5,
         rating_count := 1, is_active := true, seller_id := 1 },
       { id := 11, title := "Calculus Notes", description := "notes", price := 4,
         file_path := "b.pdf", file_type := "pdf", downloads := 0, rating := 0,
         rating_count := 0, is_active := false, seller_id := 1 }]
    reviews := [{ id := 300, rating := 5, comment := "great", material_id := 10,
                  reviewer_id := 2, seller_id := 1 }]
    orders := [{ id := 100, order_number := "SS-11111111", total_amount := 10,
                 status := "completed", payment_method := "card", buyer_id := 2 }]
    order_items := [{ id := 200, price := 10, order_id := 100, material_id := 10,
                      download_count := 0 }]
    next_order_id := 101
    next_order_item_id := 201
    next_review_id := 301 }

/-- A marketplace around a soft-deleted material: Alice (id 1) sells the
inactive material 11, which Bob (id 2) has already bought through
completed order 100 and now holds in his cart again. -/
def exB : DB :=
  { users :=
      [{ id := 1, total_earnings := 0, is_admin := false, cart := [] },
       { id := 2, total_earnings := 0, is_admin := false, cart := [11] }]
    materials :=
      [{ id := 11, title := "Calculus Notes", description := "notes", price := 4,
         file_path := "b.pdf", file_type := "pdf", downloads := 0, rating := 0,
         rating_count := 0, is_active := false, seller_id := 1 }]
    reviews := []
    orders := [{ id := 100, order_number := "SS-11111111", total_amount := 4,
                 status := "completed", payment_method := "card", buyer_id := 2 }]
    order_items := [{ id := 200, price := 4, order_id := 100, material_id := 11,
                      download_count := 0 }]
    next_order_id := 101
    next_order_item_id := 201
    next_review_id := 301 }

/-- A state whose only order already carries the number SS-ABCDEF12. -/
def exCollide : DB :=
  { users :=
      [{ id := 1, total_earnings := 0, is_admin := false, cart := [] },
       { id := 2, total_earnings := 0, is_admin := false, cart := [10] }]
    materials :=
      [{ id := 10, title := "Algebra Notes", description := "notes", price := 10,
         file_path := "a.pdf", file_type := "pdf", downloads := 0, rating := 0,
         rating_count := 0, is_active := true, seller_id := 1 }]
    reviews := []
    orders := [{ id := 100, order_number := "SS-ABCDEF12", total_amount := 10,
                 status := "completed", payment_method := "card", buyer_id := 3 }]
    order_items := []
    next_order_id := 101
    next_order_item_id := 201
    next_review_id := 301 }

/-- A state with an unvalidated negative material price. -/
def exNegPrice : DB :=
  { users :=
      [{ id := 1, total_earnings := 0, is_admin := false, cart := [] },
       { id := 2, total_earnings := 0, is_admin := false, cart := [10] }]
    materials :=
      [{ id := 10, title := "Broken", description := "notes", price := -10,
         file_path := "a.pdf", file_type := "pdf", downloads := 0, rating := 0,
         rating_count := 0, is_active := true, seller_id := 1 }]
    reviews := []
    orders := []
    order_items := []
    next_order_id := 101
    next_order_item_id := 201
    next_review_id := 301 }

/-! ### Record-update bookkeeping lemmas -/

theorem orders_updateUser (db : DB) (uid : Nat) (f : User → User) :
    (updateUser db uid f).orders = db.orders := rfl

theorem order_items_updateUser (db : DB) (uid : Nat) (f : User → User) :
    (updateUser db uid f).order_items = db.order_items := rfl

theorem orders_updateMaterial (db : DB) (mid : Nat) (f : StudyMaterial → StudyMaterial) :
    (updateMaterial db mid f).orders = db.orders := rfl

theorem order_items_updateMaterial (db : DB) (mid : Nat) (f : StudyMaterial → StudyMaterial) :
    (updateMaterial db mid f).order_items = db.order_items := rfl

theorem reviews_updateMaterial (db : DB) (mid : Nat) (f : StudyMaterial → StudyMaterial) :
    (updateMaterial db mid f).reviews = db.reviews := rfl

theorem findUser_updateMaterial (db : DB) (mid : Nat) (f : StudyMaterial → StudyMaterial)
    (uid : Nat) : findUser (updateMaterial db mid f) uid = findUser db uid := rfl

theorem findMaterial_updateUser (db : DB) (uid : Nat) (f : User → User) (mid : Nat) :
    findMaterial (updateUser db uid f) mid = findMaterial db mid := rfl

theorem findUser_updateUser (db : DB) (uid0 : Nat) (f : User → User) (uid : Nat)
    (hid : ∀ u, (f u).id = u.id) :
    findUser (updateUser db uid0 f) uid =
      (findUser db uid).map (fun u => if u.id == uid0 then f u else u) := by
  unfold findUser updateUser
  rw [show ({ db with users := db.users.map (fun u => if u.id == uid0 then f u else u) } : DB).users
        = db.users.map (fun u => if u.id == uid0 then f u else u) from rfl,
      List.find?_map]
  have hp : ((fun u : User => u.id == uid) ∘ fun u => if u.id == uid0 then f u else u)
      = (fun u : User => u.id == uid) := by
    funext u
    by_cases h : u.id = uid0 <;> simp [Function.comp, h, hid u]
  rw [hp]

theorem findMaterial_updateMaterial (db : DB) (mid0 : Nat) (f : StudyMaterial → StudyMaterial)
    (mid : Nat) (hid : ∀ m, (f m).id = m.id) :
    findMaterial (updateMaterial db mid0 f) mid =
      (findMaterial db mid).map (fun m => if m.id == mid0 then f m else m) := by
  unfold findMaterial updateMaterial
  rw [show ({ db with materials := db.materials.map (fun m => if m.id == mid0 then f m else m) } :
        DB).materials = db.materials.map (fun m => if m.id == mid0 then f m else m) from rfl,
      List.find?_map]
  have hp : ((fun m : StudyMaterial => m.id == mid) ∘ fun m => if m.id == mid0 then f m else m)
      = (fun m : StudyMaterial => m.id == mid) := by
    funext m
    by_cases h : m.id = mid0 <;> simp [Function.comp, h, hid m]
  rw [hp]

theorem findUser_some_id (db : DB) (uid : Nat) (u : User) (h : findUser db uid = some u) :
    u.id = uid := by
  unfold findUser at h
  simpa using List.find?_some h

theorem findUser_some_mem (db : DB) (uid : Nat) (u : User) (h : findUser db uid = some u) :
    u ∈ db.users := by
  unfold findUser at h
  exact List.mem_of_find?_eq_some h

theorem findMaterial_some_id (db : DB) (mid : Nat) (m : StudyMaterial)
    (h : findMaterial db mid = some m) : m.id = mid := by
  unfold findMaterial at h
  simpa using List.find?_some h

theorem findMaterial_some_mem (db : DB) (mid : Nat) (m : StudyMaterial)
    (h : findMaterial db mid = some m) : m ∈ db.materials := by
  unfold findMaterial at h
  exact List.mem_of_find?_eq_some h

theorem cartOf_updateUser (db : DB) (uid0 : Nat) (f : User → User) (uid : Nat)
    (hid : ∀ u, (f u).id = u.id) (hcart : ∀ u, (f u).cart = u.cart) :
    cartOf (updateUser db uid0 f) uid = cartOf db uid := by
  unfold cartOf
  rw [findUser_updateUser db uid0 f uid hid]
  cases findUser db uid with
  | none => rfl
  | some u => by_cases h : u.id = uid0 <;> simp [h, hcart u]

theorem cartOf_updateMaterial (db : DB) (mid : Nat) (f : StudyMaterial → StudyMaterial)
    (uid : Nat) : cartOf (updateMaterial db mid f) uid = cartOf db uid := rfl

theorem userEarnings_updateUser_pres (db : DB) (uid0 : Nat) (f : User → User) (uid : Nat)
    (hid : ∀ u, (f u).id = u.id) (hearn : ∀ u, (f u).total_earnings = u.total_earnings) :
    userEarnings (updateUser db uid0 f) uid = userEarnings db uid := by
  unfold userEarnings
  rw [findUser_updateUser db uid0 f uid hid]
  cases findUser db uid with
  | none => rfl
  | some u => by_cases h : u.id = uid0 <;> simp [h, hearn u]

theorem userEarnings_updateUser_mono (db : DB) (uid0 : Nat) (f : User → User) (uid : Nat)
    (hid : ∀ u, (f u).id = u.id) (hmono : ∀ u, u.total_earnings ≤ (f u).total_earnings) :
    userEarnings db uid ≤ userEarnings (updateUser db uid0 f) uid := by
  unfold userEarnings
  rw [findUser_updateUser db uid0 f uid hid]
  cases findUser db uid with
  | none => simp
  | some u => by_cases h : u.id = uid0 <;> simp [h, hmono u]

theorem userEarnings_updateMaterial (db : DB) (mid : Nat) (f : StudyMaterial → StudyMaterial)
    (uid : Nat) : userEarnings (updateMaterial db mid f) uid = userEarnings db uid := rfl

/-! ### Step lemmas for the checkout loop -/

theorem materialPrice_bumpStep (p : DB) (mid0 mid : Nat) :
    materialPrice (bumpStep p mid0) mid = materialPrice p mid := by
  unfold materialPrice bumpStep
  rw [findMaterial_updateMaterial p mid0 (fun m => { m with downloads := m.downloads + 1 }) mid
    (fun m => rfl)]
  cases findMaterial p mid with
  | none => rfl
  | some m => by_cases h : m.id = mid0 <;> simp [h]

theorem sellerOf_bumpStep (p : DB) (mid0 mid : Nat) :
    sellerOf (bumpStep p mid0) mid = sellerOf p mid := by
  unfold sellerOf bumpStep
  rw [findMaterial_updateMaterial p mid0 (fun m => { m with downloads := m.downloads + 1 }) mid
    (fun m => rfl)]
  cases findMaterial p mid with
  | none => rfl
  | some m => by_cases h : m.id = mid0 <;> simp [h]

theorem materialPrice_addItemStep (p : DB) (iid oid mid0 mid : Nat) :
    materialPrice (addItemStep p iid oid mid0) mid = materialPrice p mid := rfl

theorem materialPrice_creditStep (p : DB) (mid0 mid : Nat) :
    materialPrice (creditStep p mid0) mid = materialPrice p mid := rfl

theorem sellerOf_addItemStep (p : DB) (iid oid mid0 mid : Nat) :
    sellerOf (addItemStep p iid oid mid0) mid = sellerOf p mid := rfl

theorem sellerOf_creditStep (p : DB) (mid0 mid : Nat) :
    sellerOf (creditStep p mid0) mid = sellerOf p mid := rfl

theorem findUser_addItemStep (p : DB) (iid oid mid uid : Nat) :
    findUser (addItemStep p iid oid mid) uid = findUser p uid := rfl

theorem findUser_bumpStep (p : DB) (mid uid : Nat) :
    findUser (bumpStep p mid) uid = findUser p uid := rfl

theorem orders_addItemStep (p : DB) (iid oid mid : Nat) :
    (addItemStep p iid oid mid).orders = p.orders := rfl

theorem orders_bumpStep (p : DB) (mid : Nat) : (bumpStep p mid).orders = p.orders := rfl

theorem orders_creditStep (p : DB) (mid : Nat) : (creditStep p mid).orders = p.orders := rfl

theorem order_items_bumpStep (p : DB) (mid : Nat) :
    (bumpStep p mid).order_items = p.order_items := rfl

theorem order_items_creditStep (p : DB) (mid : Nat) :
    (creditStep p mid).order_items = p.order_items := rfl

theorem cartOf_addItemStep (p : DB) (iid oid mid uid : Nat) :
    cartOf (addItemStep p iid oid mid) uid = cartOf p uid := rfl

theorem cartOf_bumpStep (p : DB) (mid uid : Nat) :
    cartOf (bumpStep p mid) uid = cartOf p uid := rfl

theorem cartOf_creditStep (p : DB) (mid uid : Nat) :
    cartOf (creditStep p mid) uid = cartOf p uid := by
  unfold creditStep
  exact cartOf_updateUser p _ _ uid (fun u => rfl) (fun u => rfl)

theorem userEarnings_addItemStep (p : DB) (iid oid mid uid : Nat) :
    userEarnings (addItemStep p iid oid mid) uid = userEarnings p uid := rfl

theorem userEarnings_bumpStep (p : DB) (mid uid : Nat) :
    userEarnings (bumpStep p mid) uid = userEarnings p uid := rfl

theorem userEarnings_clearCartStep (p : DB) (uid0 uid : Nat) :
    userEarnings (clearCartStep p uid0) uid = userEarnings p uid := by
  unfold clearCartStep
  exact userEarnings_updateUser_pres p uid0 _ uid (fun u => rfl) (fun u => rfl)

theorem cartOf_clearCartStep (p : DB) (uid : Nat) : cartOf (clearCartStep p uid) uid = [] := by
  unfold clearCartStep cartOf
  rw [findUser_updateUser p uid (fun u => { u with cart := [] }) uid (fun u => rfl)]
  cases hf : findUser p uid with
  | none => rfl
  | some u =>
    have hid : u.id = uid := findUser_some_id p uid u hf
    simp [hid]

theorem materialPrice_nonneg (p : DB) (mid : Nat) (h : ∀ m ∈ p.materials, 0 ≤ m.price) :
    0 ≤ materialPrice p mid := by
  unfold materialPrice findMaterial
  cases hf : p.materials.find? (fun m => m.id == mid) with
  | none => simp
  | some m =>
    have := List.mem_of_find?_eq_some hf
    simpa using h m this

theorem price_nonneg_addItemStep (p : DB) (iid oid mid : Nat)
    (h : ∀ m ∈ p.materials, 0 ≤ m.price) :
    ∀ m ∈ (addItemStep p iid oid mid).materials, 0 ≤ m.price := h

theorem price_nonneg_bumpStep (p : DB) (mid : Nat) (h : ∀ m ∈ p.materials, 0 ≤ m.price) :
    ∀ m ∈ (bumpStep p mid).materials, 0 ≤ m.price := by
  intro m hm
  unfold bumpStep updateMaterial at hm
  simp only [List.mem_map] at hm
  obtain ⟨m0, hm0, rfl⟩ := hm
  by_cases h0 : m0.id = mid <;> simp [h0, h m0 hm0]

theorem price_nonneg_creditStep (p : DB) (mid : Nat) (h : ∀ m ∈ p.materials, 0 ≤ m.price) :
    ∀ m ∈ (creditStep p mid).materials, 0 ≤ m.price := h

theorem userEarnings_creditStep_mono (p : DB) (mid uid : Nat)
    (h : 0 ≤ materialPrice p mid) :
    userEarnings p uid ≤ userEarnings (creditStep p mid) uid := by
  unfold creditStep
  refine userEarnings_updateUser_mono p _ _ uid (fun u => rfl) (fun u => ?_)
  have : 0 ≤ materialPrice p mid * (4 / 5) := by positivity
  linarith

theorem userEarnings_creditStep_self (p : DB) (mid : Nat) (s : User)
    (hs : findUser p (sellerOf p mid) = some s) :
    userEarnings (creditStep p mid) (sellerOf p mid) =
      s.total_earnings + materialPrice p mid * (4 / 5) := by
  unfold creditStep userEarnings
  rw [findUser_updateUser p (sellerOf p mid)
    (fun u => { u with total_earnings := u.total_earnings + materialPrice p mid * (4 / 5) })
    (sellerOf p mid) (fun u => rfl), hs]
  have hid : s.id = sellerOf p mid := findUser_some_id _ _ _ hs
  simp [hid]

theorem userEarnings_updateUser_ne (db : DB) (uid0 uid : Nat) (f : User → User)
    (hid : ∀ u, (f u).id = u.id) (hne : uid ≠ uid0) :
    userEarnings (updateUser db uid0 f) uid = userEarnings db uid := by
  unfold userEarnings
  rw [findUser_updateUser db uid0 f uid hid]
  cases hf : findUser db uid with
  | none => rfl
  | some u =>
    have h2 : u.id = uid := findUser_some_id db uid u hf
    simp [h2, hne]

/-! ### Running the item loop -/

theorem runScript_itemActions (cart : List Nat) :
    ∀ (c p : DB) (oid fid : Nat) (rest : List SessionAction),
      runScript { committed := c, pending := p } (itemActions oid fid cart ++ rest) =
        runScript { committed := c, pending := processItems p oid fid cart } rest := by
  induction cart with
  | nil => intro c p oid fid rest; rfl
  | cons mid tail ih =>
    intro c p oid fid rest
    simp only [itemActions, List.cons_append, runScript, applyAction, processItems]
    exact ih c _ oid (fid + 1) rest

theorem processItems_orders (cart : List Nat) :
    ∀ (p : DB) (oid fid : Nat), (processItems p oid fid cart).orders = p.orders := by
  induction cart with
  | nil => intro p oid fid; rfl
  | cons mid tail ih =>
    intro p oid fid
    simp only [processItems]
    rw [ih]
    rfl

theorem processItems_cartOf (cart : List Nat) :
    ∀ (p : DB) (oid fid uid : Nat), cartOf (processItems p oid fid cart) uid = cartOf p uid := by
  induction cart with
  | nil => intro p oid fid uid; rfl
  | cons mid tail ih =>
    intro p oid fid uid
    simp only [processItems]
    rw [ih, cartOf_creditStep]
    rfl

theorem processItems_materialPrice (cart : List Nat) :
    ∀ (p : DB) (oid fid mid : Nat),
      materialPrice (processItems p oid fid cart) mid = materialPrice p mid := by
  induction cart with
  | nil => intro p oid fid mid; rfl
  | cons mid0 tail ih =>
    intro p oid fid mid
    simp only [processItems]
    rw [ih, materialPrice_creditStep, materialPrice_bumpStep, materialPrice_addItemStep]

theorem mkItems_congr (p' p : DB) (oid : Nat)
    (h : ∀ mid, materialPrice p' mid = materialPrice p mid) :
    ∀ (fid : Nat) (cart : List Nat), mkItems p' oid fid cart = mkItems p oid fid cart := by
  intro fid cart
  induction cart generalizing fid with
  | nil => rfl
  | cons mid tail ih => simp only [mkItems, h mid, ih]

theorem processItems_order_items (cart : List Nat) :
    ∀ (p : DB) (oid fid : Nat),
      (processItems p oid fid cart).order_items = p.order_items ++ mkItems p oid fid cart := by
  induction cart with
  | nil => intro p oid fid; simp [processItems, mkItems]
  | cons mid tail ih =>
    intro p oid fid
    simp only [processItems, mkItems]
    rw [ih]
    have hpr : ∀ mid2,
        materialPrice (creditStep (bumpStep (addItemStep p fid oid mid) mid) mid) mid2 =
          materialPrice p mid2 := by
      intro mid2
      rw [materialPrice_creditStep, materialPrice_bumpStep, materialPrice_addItemStep]
    rw [mkItems_congr _ p oid hpr]
    simp [creditStep, bumpStep, updateUser, updateMaterial, addItemStep]

theorem processItems_userEarnings_mono (cart : List Nat) :
    ∀ (p : DB) (oid fid uid : Nat), (∀ m ∈ p.materials, 0 ≤ m.price) →
      userEarnings p uid ≤ userEarnings (processItems p oid fid cart) uid := by
  induction cart with
  | nil => intro p oid fid uid _; exact le_refl _
  | cons mid tail ih =>
    intro p oid fid uid hnn
    simp only [processItems]
    have h1 : userEarnings p uid ≤
        userEarnings (creditStep (bumpStep (addItemStep p fid oid mid) mid) mid) uid := by
      rw [show userEarnings p uid =
            userEarnings (bumpStep (addItemStep p fid oid mid) mid) uid from rfl]
      refine userEarnings_creditStep_mono _ mid uid ?_
      rw [materialPrice_bumpStep, materialPrice_addItemStep]
      exact materialPrice_nonneg p mid hnn
    have h2 : ∀ m ∈ (creditStep (bumpStep (addItemStep p fid oid mid) mid) mid).materials,
        0 ≤ m.price := by
      refine price_nonneg_creditStep _ mid ?_
      exact price_nonneg_bumpStep _ mid (price_nonneg_addItemStep p fid oid mid hnn)
    exact le_trans h1 (ih _ oid (fid + 1) uid h2)

theorem mkItems_map_material_id (p : DB) (oid : Nat) :
    ∀ (fid : Nat) (cart : List Nat), (mkItems p oid fid cart).map OrderItem.material_id = cart := by
  intro fid cart
  induction cart generalizing fid with
  | nil => rfl
  | cons mid tail ih => simp only [mkItems, List.map_cons, ih]

theorem mkItems_map_price (p : DB) (oid : Nat) :
    ∀ (fid : Nat) (cart : List Nat),
      (mkItems p oid fid cart).map OrderItem.price = cart.map (materialPrice p) := by
  intro fid cart
  induction cart generalizing fid with
  | nil => rfl
  | cons mid tail ih => simp only [mkItems, List.map_cons, ih]

theorem mkItems_order_id (p : DB) (oid : Nat) :
    ∀ (fid : Nat) (cart : List Nat), ∀ oi ∈ mkItems p oid fid cart, oi.order_id = oid := by
  intro fid cart
  induction cart generalizing fid with
  | nil => intro oi h; simp [mkItems] at h
  | cons mid tail ih =>
    intro oi h
    simp only [mkItems, List.mem_cons] at h
    cases h with
    | inl h => rw [h]
    | inr h => exact ih (fid + 1) oi h

/-! ### Commit placement and atomicity of the script -/

theorem commit_not_mem_itemActions (oid : Nat) :
    ∀ (fid : Nat) (cart : List Nat), SessionAction.commit ∉ itemActions oid fid cart := by
  intro fid cart
  induction cart generalizing fid with
  | nil => simp [itemActions]
  | cons mid tail ih =>
    simp only [itemActions, List.mem_cons]
    intro h
    rcases h with h | h | h | h
    · exact SessionAction.noConfusion h
    · exact SessionAction.noConfusion h
    · exact SessionAction.noConfusion h
    · exact ih (fid + 1) h

theorem checkoutScript_eq_body_commit (db : DB) (uid : Nat) (hex : String) :
    checkoutScript db uid hex = checkoutBody db uid hex ++ [SessionAction.commit] := by
  unfold checkoutScript checkoutBody
  simp

theorem commit_not_mem_checkoutBody (db : DB) (uid : Nat) (hex : String) :
    SessionAction.commit ∉ checkoutBody db uid hex := by
  unfold checkoutBody
  intro h
  rcases List.mem_cons.1 h with h1 | h
  · exact SessionAction.noConfusion h1
  rcases List.mem_cons.1 h with h1 | h
  · exact SessionAction.noConfusion h1
  rcases List.mem_append.1 h with h1 | h1
  · exact commit_not_mem_itemActions _ _ _ h1
  · have h2 := List.mem_singleton.1 h1
    exact SessionAction.noConfusion h2

theorem runScript_committed_of_no_commit (l : List SessionAction) :
    ∀ s : Session, SessionAction.commit ∉ l → ((runScript s l).1).committed = s.committed := by
  induction l with
  | nil => intro s _; rfl
  | cons a rest ih =>
    intro s hmem
    have ha : a ≠ SessionAction.commit := fun h => hmem (by simp [h])
    have hrest : SessionAction.commit ∉ rest := fun h => hmem (List.mem_cons_of_mem a h)
    cases a with
    | commit => exact absurd rfl ha
    | addOrder o =>
      simp only [runScript]
      cases happ : applyAction s.pending (SessionAction.addOrder o) with
      | ok p => simp only [happ]; exact ih _ hrest
      | error e => simp only [happ]
    | flush =>
      simp only [runScript, applyAction]
      exact ih _ hrest
    | addOrderItem iid oid mid =>
      simp only [runScript, applyAction]
      exact ih _ hrest
    | bumpDownloads mid =>
      simp only [runScript, applyAction]
      exact ih _ hrest
    | creditSeller mid =>
      simp only [runScript, applyAction]
      exact ih _ hrest
    | clearCart uid0 =>
      simp only [runScript, applyAction]
      exact ih _ hrest

theorem runScript_error_committed (body : List SessionAction) :
    ∀ s : Session, SessionAction.commit ∉ body →
      ∀ s' e, runScript s (body ++ [SessionAction.commit]) = (s', some e) →
        s'.committed = s.committed := by
  induction body with
  | nil =>
    intro s _ s' e h
    simp only [List.nil_append, runScript] at h
    exact absurd h (by simp)
  | cons a rest ih =>
    intro s hmem s' e h
    have ha : a ≠ SessionAction.commit := fun hc => hmem (by simp [hc])
    have hrest : SessionAction.commit ∉ rest := fun hc => hmem (List.mem_cons_of_mem a hc)
    cases a with
    | commit => exact absurd rfl ha
    | addOrder o =>
      cases happ : applyAction s.pending (SessionAction.addOrder o) with
      | ok p =>
        simp only [List.cons_append, runScript, happ] at h
        exact ih { committed := s.committed, pending := p } hrest s' e h
      | error e2 =>
        simp only [List.cons_append, runScript, happ] at h
        rw [show s' = s from (congrArg Prod.fst h).symm]
    | flush =>
      simp only [List.cons_append, runScript, applyAction] at h
      exact ih { committed := s.committed, pending := s.pending } hrest s' e h
    | addOrderItem iid oid mid =>
      simp only [List.cons_append, runScript, applyAction] at h
      exact ih { committed := s.committed, pending := addItemStep s.pending iid oid mid }
        hrest s' e h
    | bumpDownloads mid =>
      simp only [List.cons_append, runScript, applyAction] at h
      exact ih { committed := s.committed, pending := bumpStep s.pending mid } hrest s' e h
    | creditSeller mid =>
      simp only [List.cons_append, runScript, applyAction] at h
      exact ih { committed := s.committed, pending := creditStep s.pending mid } hrest s' e h
    | clearCart uid0 =>
      simp only [List.cons_append, runScript, applyAction] at h
      exact ih { committed := s.committed, pending := clearCartStep s.pending uid0 }
        hrest s' e h

/-! ### The outcome of a full checkout run -/

theorem checkoutRun_eq (db : DB) (uid : Nat) (hex : String) (hcart : cartOf db uid ≠ []) :
    checkoutRun db uid hex =
      if db.orders.any (fun o2 => o2.order_number == genOrderNumber hex) then
        ({ committed := db, pending := db }, some CheckoutError.integrityError)
      else
        ({ committed := checkoutResult db uid hex, pending := checkoutResult db uid hex },
          none) := by
  unfold checkoutRun
  rw [if_neg hcart]
  unfold checkoutScript
  by_cases hcol : db.orders.any (fun o2 => o2.order_number == genOrderNumber hex)
  · rw [if_pos hcol]
    simp only [runScript, applyAction, checkoutOrder]
    rw [if_pos hcol]
  · rw [if_neg hcol]
    simp only [runScript, applyAction, checkoutOrder]
    rw [if_neg hcol]
    show runScript { committed := db, pending := pendingAfterOrder db uid hex }
        (itemActions db.next_order_id db.next_order_item_id (cartOf db uid) ++
          [SessionAction.clearCart uid, SessionAction.commit]) =
      ({ committed := checkoutResult db uid hex, pending := checkoutResult db uid hex }, none)
    rw [runScript_itemActions]
    simp only [runScript, applyAction]
    unfold checkoutResult
    rfl

theorem checkout_eq_ok (db : DB) (uid : Nat) (hex : String) (hcart : cartOf db uid ≠ [])
    (hno : ∀ o' ∈ db.orders, o'.order_number ≠ genOrderNumber hex) :
    checkout db uid hex = Except.ok (checkoutResult db uid hex) := by
  unfold checkout
  rw [checkoutRun_eq db uid hex hcart]
  have hcol : ¬ db.orders.any (fun o2 => o2.order_number == genOrderNumber hex) = true := by
    simp only [List.any_eq_true]
    rintro ⟨o', hmem, hbeq⟩
    exact hno o' hmem (by simpa using hbeq)
  rw [if_neg hcol]

theorem checkout_ok_elim (db : DB) (uid : Nat) (hex : String) (db' : DB)
    (hok : checkout db uid hex = Except.ok db') :
    cartOf db uid ≠ [] ∧ (∀ o' ∈ db.orders, o'.order_number ≠ genOrderNumber hex) ∧
      db' = checkoutResult db uid hex := by
  by_cases hcart : cartOf db uid = []
  · exfalso
    unfold checkout checkoutRun at hok
    rw [if_pos hcart] at hok
    exact Except.noConfusion hok
  · unfold checkout at hok
    rw [checkoutRun_eq db uid hex hcart] at hok
    by_cases hcol : db.orders.any (fun o2 => o2.order_number == genOrderNumber hex)
    · rw [if_pos hcol] at hok
      exact absurd hok (by simp)
    · rw [if_neg hcol] at hok
      simp only [] at hok
      refine ⟨hcart, ?_, by injection hok with h; exact h.symm⟩
      intro o' hmem heq
      refine hcol ?_
      simp only [List.any_eq_true]
      exact ⟨o', hmem, by simp [heq]⟩

theorem orders_clearCartStep (p : DB) (uid : Nat) :
    (clearCartStep p uid).orders = p.orders := rfl

theorem order_items_clearCartStep (p : DB) (uid : Nat) :
    (clearCartStep p uid).order_items = p.order_items := rfl

theorem edit_material_keeps_orders (db : DB) (uid mid : Nat) (t d : String) (pr : ℚ) :
    (edit_material db uid mid t d pr).2.orders = db.orders ∧
    (edit_material db uid mid t d pr).2.order_items = db.order_items := by
  unfold edit_material
  split
  · exact ⟨rfl, rfl⟩
  · split
    · exact ⟨rfl, rfl⟩
    · exact ⟨rfl, rfl⟩

/-! ### Claim theorems -/

/-- C1: a successful checkout empties the buyer's cart and creates a
completed Order whose frozen total is the sum of the cart materials'
prices at the moment of checkout, with one OrderItem per cart material
storing that material's price at that moment; the item prices sum to the
order total, and later price edits through `edit_material` leave the
orders and order items untouched. -/
theorem checkout_freezes_prices (db : DB) (uid : Nat) (hex : String) (db' : DB)
    (hok : checkout db uid hex = Except.ok db') :
    cartOf db' uid = [] ∧
    ∃ o newItems,
      db'.orders = db.orders ++ [o] ∧
      o.status = "completed" ∧
      o.buyer_id = uid ∧
      o.total_amount = ((cartOf db uid).map (materialPrice db)).sum ∧
      db'.order_items = db.order_items ++ newItems ∧
      newItems.map OrderItem.material_id = cartOf db uid ∧
      (∀ oi ∈ newItems, oi.order_id = o.id) ∧
      newItems.map OrderItem.price = (cartOf db uid).map (materialPrice db) ∧
      (newItems.map OrderItem.price).sum = o.total_amount ∧
      ∀ uid2 mid2 t2 d2 pr2,
        (edit_material db' uid2 mid2 t2 d2 pr2).2.orders = db'.orders ∧
        (edit_material db' uid2 mid2 t2 d2 pr2).2.order_items = db'.order_items := by
  obtain ⟨hcart, hno, hdb⟩ := checkout_ok_elim db uid hex db' hok
  subst hdb
  have hcartclear : cartOf (checkoutResult db uid hex) uid = [] := by
    unfold checkoutResult
    exact cartOf_clearCartStep _ uid
  have horders : (checkoutResult db uid hex).orders =
      db.orders ++ [checkoutOrder db uid hex] := by
    unfold checkoutResult
    rw [orders_clearCartStep, processItems_orders]
    rfl
  have hmk : mkItems (pendingAfterOrder db uid hex) db.next_order_id db.next_order_item_id
        (cartOf db uid) =
      mkItems db db.next_order_id db.next_order_item_id (cartOf db uid) :=
    mkItems_congr (pendingAfterOrder db uid hex) db db.next_order_id (fun _ => rfl) _ _
  have hitems : (checkoutResult db uid hex).order_items =
      db.order_items ++ mkItems db db.next_order_id db.next_order_item_id (cartOf db uid) := by
    unfold checkoutResult
    rw [order_items_clearCartStep, processItems_order_items, hmk]
    rfl
  refine ⟨hcartclear, checkoutOrder db uid hex,
    mkItems db db.next_order_id db.next_order_item_id (cartOf db uid),
    horders, rfl, rfl, rfl, hitems, mkItems_map_material_id db db.next_order_id _ _,
    mkItems_order_id db db.next_order_id _ _, mkItems_map_price db db.next_order_id _ _, ?_, ?_⟩
  · rw [mkItems_map_price db db.next_order_id _ _]
    rfl
  · intro uid2 mid2 t2 d2 pr2
    exact edit_material_keeps_orders _ uid2 mid2 t2 d2 pr2

/-- C2: checkout is atomic.  A failure injected after any proper prefix of
the transaction's statement list (in particular after the Order insert and
before the OrderItems are all created) leaves the externally observable
state exactly the original database, and any error arising inside the run
itself (empty cart, duplicate order number) likewise leaves it unchanged:
either the whole transaction commits or nothing does. -/
theorem checkout_atomic (db : DB) (uid : Nat) (hex : String) :
    (∀ k, k < (checkoutScript db uid hex).length →
      checkoutFailingAfter db uid hex k = db)
  ∧ (∀ s e, checkoutRun db uid hex = (s, some e) → s.committed = db) := by
  constructor
  · intro k hk
    unfold checkoutFailingAfter
    by_cases hcart : cartOf db uid = []
    · rw [if_pos hcart]
    · rw [if_neg hcart]
      have hbody := checkoutScript_eq_body_commit db uid hex
      have hlen : k ≤ (checkoutBody db uid hex).length := by
        rw [hbody, List.length_append, List.length_singleton] at hk
        omega
      rw [hbody, List.take_append_of_le_length hlen]
      apply runScript_committed_of_no_commit
      intro hmem
      exact commit_not_mem_checkoutBody db uid hex (List.mem_of_mem_take hmem)
  · intro s e h
    unfold checkoutRun at h
    by_cases hcart : cartOf db uid = []
    · rw [if_pos hcart] at h
      have h1 : ({ committed := db, pending := db } : Session) = s := congrArg Prod.fst h
      rw [← h1]
    · rw [if_neg hcart, checkoutScript_eq_body_commit db uid hex] at h
      exact runScript_error_committed _ _ (commit_not_mem_checkoutBody db uid hex) s e h

/-- C7 (amended theorem): whenever a checkout succeeds, the created
Order's number is `genOrderNumber` applied to the random UUID and differs
from every previously assigned order number — the unique constraint on
`order_number` rejects a colliding insert, failing that checkout instead. -/
theorem order_number_fresh_on_success (db : DB) (uid : Nat) (hex : String) (db' : DB)
    (hok : checkout db uid hex = Except.ok db') :
    ∃ o, db'.orders = db.orders ++ [o] ∧ o.order_number = genOrderNumber hex ∧
      ∀ o' ∈ db.orders, o'.order_number ≠ o.order_number := by
  obtain ⟨hcart, hno, hdb⟩ := checkout_ok_elim db uid hex db' hok
  subst hdb
  refine ⟨checkoutOrder db uid hex, ?_, rfl, hno⟩
  unfold checkoutResult
  rw [orders_clearCartStep, processItems_orders]
  rfl

/-- C7 counterexample: with prior order number SS-ABCDEF12 on file and a
UUID whose hex starts `abcdef12`, the generated order number collides with
the existing one, so this checkout does not assign a fresh number — it
aborts with an integrity error. -/
theorem order_number_collision_cx :
    genOrderNumber "abcdef12deadbeef" = "SS-ABCDEF12" ∧
    (∃ o ∈ exCollide.orders, o.order_number = genOrderNumber "abcdef12deadbeef") ∧
    checkout exCollide 2 "abcdef12deadbeef" = Except.error CheckoutError.integrityError := by
  refine ⟨by decide, ⟨⟨100, "SS-ABCDEF12", 10, "completed", "card", 3⟩, by decide, by decide⟩,
    by decide⟩

theorem userEarnings_update_rating (db : DB) (mid uid : Nat) :
    userEarnings (update_rating db mid) uid = userEarnings db uid := by
  simp only [update_rating]
  split
  · exact userEarnings_updateMaterial db mid _ uid
  · exact userEarnings_updateMaterial db mid _ uid

/-- C8 (amended theorem): a user's `total_earnings` never decreases under
any modelled operation, provided every material price is nonnegative — the
only operation that touches earnings is checkout, which credits each
seller 80% of each purchased item's price; since prices are nowhere
validated, a negative price breaks the claim (see the counterexample). -/
theorem earnings_monotone (db : DB) :
    (∀ uid hex db', (∀ m ∈ db.materials, 0 ≤ m.price) →
      checkout db uid hex = Except.ok db' → ∀ u, userEarnings db u ≤ userEarnings db' u)
  ∧ (∀ uid mid u, userEarnings (add_to_cart db uid mid).2 u = userEarnings db u)
  ∧ (∀ uid mid u, userEarnings (download_material db uid mid).2 u = userEarnings db u)
  ∧ (∀ uid mid r c u, userEarnings (add_review db uid mid r c).2 u = userEarnings db u)
  ∧ (∀ uid mid t d pr u, userEarnings (edit_material db uid mid t d pr).2 u = userEarnings db u)
  ∧ (∀ uid mid u, userEarnings (delete_material db uid mid).2 u = userEarnings db u) := by
  refine ⟨?_, ?_, ?_, ?_, ?_, ?_⟩
  · intro uid hex db' hnn hok u
    obtain ⟨hcart, hno, hdb⟩ := checkout_ok_elim db uid hex db' hok
    subst hdb
    unfold checkoutResult
    rw [userEarnings_clearCartStep]
    have h0 : userEarnings db u = userEarnings (pendingAfterOrder db uid hex) u := rfl
    rw [h0]
    exact processItems_userEarnings_mono (cartOf db uid) _ db.next_order_id
      db.next_order_item_id u hnn
  · intro uid mid u
    unfold add_to_cart
    split
    · rfl
    · split
      · rfl
      · split
        · rfl
        · exact userEarnings_updateUser_pres db uid _ u (fun u2 => rfl) (fun u2 => rfl)
  · intro uid mid u
    unfold download_material
    split
    · rfl
    · split
      · rfl
      · split
        · rfl
        · rfl
  · intro uid mid r c u
    unfold add_review
    split
    · rfl
    · split
      · rfl
      · split
        · rfl
        · split
          · rfl
          · split
            · rfl
            · rw [show ((ReviewResult.added, update_rating { db with
                  reviews := db.reviews ++ [_], next_review_id := db.next_review_id + 1 }
                  mid) : ReviewResult × DB).2 = update_rating { db with
                  reviews := db.reviews ++ [_], next_review_id := db.next_review_id + 1 }
                  mid from rfl]
              rw [userEarnings_update_rating]
              rfl
  · intro uid mid t d pr u
    unfold edit_material
    split
    · rfl
    · split
      · rfl
      · exact userEarnings_updateMaterial db mid _ u
  · intro uid mid u
    unfold delete_material
    split
    · rfl
    · split
      · rfl
      · exact userEarnings_updateMaterial db mid _ u

/-- C8 counterexample: material 10 has the unvalidated price -10; Bob's
checkout of it succeeds and credits its seller 80% of -10, dropping
Alice's `total_earnings` from 0 to -8 — earnings do decrease. -/
theorem earnings_decrease_cx :
    ∃ db', checkout exNegPrice 2 "cafebabe" = Except.ok db' ∧
      userEarnings db' 1 < userEarnings exNegPrice 1 := by
  have hcart : cartOf exNegPrice 2 ≠ [] := by decide
  have hno : ∀ o' ∈ exNegPrice.orders, o'.order_number ≠ genOrderNumber "cafebabe" := by decide
  refine ⟨checkoutResult exNegPrice 2 "cafebabe",
    checkout_eq_ok exNegPrice 2 "cafebabe" hcart hno, ?_⟩
  have h1 : userEarnings exNegPrice 1 = 0 := rfl
  rw [h1]
  have hc : cartOf exNegPrice 2 = [10] := rfl
  unfold checkoutResult
  rw [userEarnings_clearCartStep, hc]
  simp only [processItems]
  refine lt_of_eq_of_lt (userEarnings_creditStep_self _ 10
    { id := 1, total_earnings := 0, is_admin := false, cart := [] } rfl) ?_
  show (0 : ℚ) + (-10) * (4 / 5) < 0
  norm_num

/-! ### Rating maintenance lemmas -/

theorem reviews_update_rating (db : DB) (mid : Nat) :
    (update_rating db mid).reviews = db.reviews := by
  simp only [update_rating]
  split
  · rfl
  · rfl

theorem mem_updateMaterial_target (db : DB) (mid : Nat) (f : StudyMaterial → StudyMaterial)
    (m : StudyMaterial) (hm : m ∈ (updateMaterial db mid f).materials) (hid : m.id = mid) :
    ∃ m0 ∈ db.materials, m = f m0 := by
  unfold updateMaterial at hm
  simp only [List.mem_map] at hm
  obtain ⟨m0, hm0, heq⟩ := hm
  by_cases h0 : m0.id = mid
  · refine ⟨m0, hm0, ?_⟩
    rw [← heq]
    simp [h0]
  · exfalso
    have hmm : m = m0 := by
      rw [← heq]
      simp [h0]
    rw [hmm] at hid
    exact h0 hid

theorem mem_update_rating_other (db : DB) (mid : Nat) (m : StudyMaterial)
    (hm : m ∈ (update_rating db mid).materials) (hne : m.id ≠ mid) : m ∈ db.materials := by
  have key : ∀ (f : StudyMaterial → StudyMaterial),
      m ∈ (updateMaterial db mid f).materials → (∀ m0, (f m0).id = m0.id) →
      m ∈ db.materials := by
    intro f hmm hfid
    unfold updateMaterial at hmm
    simp only [List.mem_map] at hmm
    obtain ⟨m0, hm0, heq⟩ := hmm
    by_cases h0 : m0.id = mid
    · exfalso
      have hmid : m.id = m0.id := by
        rw [← heq]
        simp [h0, hfid m0]
      exact hne (hmid.trans h0)
    · have hmm2 : m = m0 := by
        rw [← heq]
        simp [h0]
      rw [hmm2]
      exact hm0
  simp only [update_rating] at hm
  by_cases hempty : (List.filter (fun r => r.material_id == mid) db.reviews).isEmpty
  · rw [if_pos hempty] at hm
    exact key _ hm (fun m0 => rfl)
  · rw [if_neg hempty] at hm
    exact key _ hm (fun m0 => rfl)

theorem ratingOk_update_rating (db : DB) (mid : Nat) (m : StudyMaterial)
    (hm : m ∈ (update_rating db mid).materials) (hid : m.id = mid) :
    ratingOk (update_rating db mid) m := by
  have hrev : materialReviews (update_rating db mid) m.id = materialReviews db mid := by
    unfold materialReviews
    rw [reviews_update_rating, hid]
  simp only [update_rating] at hm
  by_cases hempty : (List.filter (fun r => r.material_id == mid) db.reviews).isEmpty
  · rw [if_pos hempty] at hm
    obtain ⟨m0, hm0, heq⟩ := mem_updateMaterial_target db mid _ m hm hid
    have hnil : materialReviews db mid = [] := List.isEmpty_iff.1 hempty
    constructor
    · rw [hrev, hnil, heq]
      rfl
    · rw [hrev, hnil, heq]
      rfl
  · rw [if_neg hempty] at hm
    obtain ⟨m0, hm0, heq⟩ := mem_updateMaterial_target db mid _ m hm hid
    constructor
    · rw [hrev, heq]
      unfold materialReviews
      rw [if_neg hempty]
    · rw [hrev, heq]
      rfl

theorem ratingOk_congr (db2 db : DB) (m : StudyMaterial)
    (h : materialReviews db2 m.id = materialReviews db m.id) (hok : ratingOk db m) :
    ratingOk db2 m := by
  unfold ratingOk at hok ⊢
  rw [h]
  exact hok

theorem ratingInvariant_insert (db db1 : DB) (mid : Nat) (rv : Review)
    (hrv : rv.material_id = mid)
    (hrev1 : db1.reviews = db.reviews ++ [rv])
    (hmat1 : db1.materials = db.materials)
    (h : ratingInvariant db) :
    ratingInvariant (update_rating db1 mid) := by
  intro m hm
  by_cases hid : m.id = mid
  · exact ratingOk_update_rating db1 mid m hm hid
  · have hm1 : m ∈ db1.materials := mem_update_rating_other db1 mid m hm hid
    have hok := h m (by rw [← hmat1]; exact hm1)
    refine ratingOk_congr _ db m ?_ hok
    unfold materialReviews
    rw [reviews_update_rating, hrev1, List.filter_append]
    have hb : (rv.material_id == m.id) = false := by
      rw [hrv]
      exact beq_eq_false_iff_ne.mpr (fun hc => hid hc.symm)
    rw [show List.filter (fun r => r.material_id == m.id) [rv] = [] from by
      simp [List.filter_cons, hb]]
    rw [List.append_nil]

theorem add_review_preserves_ratingInvariant (db : DB) (uid mid : Nat) (r : Option Int)
    (c : String) (h : ratingInvariant db) :
    ratingInvariant (add_review db uid mid r c).2 := by
  unfold add_review
  split
  · exact h
  · split
    · exact h
    · split
      · exact h
      · split
        · exact h
        · split
          · exact h
          · exact ratingInvariant_insert db _ mid _ rfl rfl rfl h

theorem add_review_added_ratingOk (db : DB) (uid mid : Nat) (r : Option Int) (c : String)
    (db2 : DB) (h : add_review db uid mid r c = (ReviewResult.added, db2)) :
    ∀ m ∈ db2.materials, m.id = mid → ratingOk db2 m := by
  unfold add_review at h
  split at h
  · simp at h
  · split at h
    · simp at h
    · split at h
      · simp at h
      · split at h
        · simp at h
        · split at h
          · simp at h
          · have hdb2 : db2 = update_rating
                { db with reviews := db.reviews ++ [_],
                          next_review_id := db.next_review_id + 1 } mid :=
              (congrArg Prod.snd h).symm
            subst hdb2
            intro m hm hid
            exact ratingOk_update_rating _ mid m hm hid

theorem applyReviews_ratingInvariant (ops : List (Nat × Nat × Option Int × String)) :
    ∀ db : DB, ratingInvariant db → ratingInvariant (applyReviews db ops) := by
  induction ops with
  | nil => intro db h; exact h
  | cons op rest ih =>
    intro db h
    obtain ⟨uid, mid, r, c⟩ := op
    exact ih _ (add_review_preserves_ratingInvariant db uid mid r c h)

/-- C4: after every successful review addition the reviewed material's
`rating` equals the arithmetic mean of its reviews' rating values (and 0
with no reviews) and `rating_count` equals their number; starting from any
state satisfying this invariant, it holds for every material after any
sequence of `add_review` operations. -/
theorem rating_mean_invariant (db : DB) :
    (∀ uid mid r c db2, add_review db uid mid r c = (ReviewResult.added, db2) →
      ∀ m ∈ db2.materials, m.id = mid → ratingOk db2 m)
  ∧ (ratingInvariant db → ∀ ops, ratingInvariant (applyReviews db ops)) := by
  constructor
  · intro uid mid r c db2 h
    exact add_review_added_ratingOk db uid mid r c db2 h
  · intro h ops
    exact applyReviews_ratingInvariant ops db h

/-- C3: `has_access` holds exactly when the user is the material's seller
or some completed Order of theirs contains an OrderItem referencing the
material; in particular a seller always has access to their own material,
and a user without access is refused the download. -/
theorem has_access_spec (db : DB) (uid mid : Nat) (m : StudyMaterial)
    (hm : findMaterial db mid = some m) :
    (has_access db uid mid = true ↔
      (m.seller_id = uid ∨ ∃ o ∈ db.orders, o.buyer_id = uid ∧ o.status = "completed" ∧
        ∃ oi ∈ db.order_items, oi.order_id = o.id ∧ oi.material_id = mid))
  ∧ (m.seller_id = uid → has_access db uid mid = true)
  ∧ (has_access db uid mid = false →
      download_material db uid mid = (DownloadResult.accessDenied, db)) := by
  have hiff : (findPurchaseItem db uid mid).isSome = true ↔
      ∃ o ∈ db.orders, o.buyer_id = uid ∧ o.status = "completed" ∧
        ∃ oi ∈ db.order_items, oi.order_id = o.id ∧ oi.material_id = mid := by
    unfold findPurchaseItem
    rw [List.find?_isSome]
    constructor
    · rintro ⟨oi, hoi, hpred⟩
      simp only [Bool.and_eq_true, List.any_eq_true, beq_iff_eq] at hpred
      obtain ⟨hmat, o, ho, ⟨hid, hbuy⟩, hst⟩ := hpred
      exact ⟨o, ho, hbuy, hst, oi, hoi, hid.symm, hmat⟩
    · rintro ⟨o, ho, hbuy, hst, oi, hoi, hid, hmat⟩
      refine ⟨oi, hoi, ?_⟩
      simp only [Bool.and_eq_true, List.any_eq_true, beq_iff_eq]
      exact ⟨hmat, o, ho, ⟨hid.symm, hbuy⟩, hst⟩
  refine ⟨?_, ?_, ?_⟩
  · unfold has_access
    rw [hm]
    rw [Bool.or_eq_true, beq_iff_eq, hiff]
  · intro hs
    unfold has_access
    rw [hm]
    simp [hs]
  · intro hfa
    unfold has_access at hfa
    rw [hm] at hfa
    rw [Bool.or_eq_false_iff] at hfa
    obtain ⟨h1, h2⟩ := hfa
    have hnone : findPurchaseItem db uid mid = none := by
      cases hx : findPurchaseItem db uid mid
      · rfl
      · rw [hx] at h2
        simp at h2
    unfold download_material
    rw [hm]
    dsimp only
    rw [if_neg (by simp [h1]), hnone]

/-- C5: `add_review` refuses any user who has no completed purchase of the
material — entitlement for review is purchase-only, so in particular the
seller of a material (who has download access) cannot review it without
having bought it. -/
theorem review_requires_purchase (db : DB) (uid mid : Nat) (r : Option Int) (c : String)
    (m : StudyMaterial) (hm : findMaterial db mid = some m)
    (hnp : findPurchaseItem db uid mid = none) :
    add_review db uid mid r c = (ReviewResult.notEntitled, db) := by
  unfold add_review
  rw [hm]
  dsimp only
  rw [hnp]

theorem atMostOne_insert (db : DB) (mid uid : Nat) (rv : Review)
    (hmat : rv.material_id = mid) (hrevr : rv.reviewer_id = uid)
    (hnone : db.reviews.find? (fun r => r.material_id == mid && r.reviewer_id == uid) = none)
    (h : atMostOneReview db) :
    atMostOneReview (update_rating
      { db with reviews := db.reviews ++ [rv],
                next_review_id := db.next_review_id + 1 } mid) := by
  intro a b
  unfold reviewsBy
  rw [reviews_update_rating]
  show (List.filter (fun r => r.material_id == a && r.reviewer_id == b)
    (db.reviews ++ [rv])).length ≤ 1
  rw [List.filter_append]
  by_cases hab : a = mid ∧ b = uid
  · obtain ⟨ha, hb⟩ := hab
    have hnil : List.filter (fun r => r.material_id == a && r.reviewer_id == b) db.reviews
        = [] := by
      rw [List.filter_eq_nil_iff]
      intro x hx
      have hpx := List.find?_eq_none.1 hnone x hx
      rw [ha, hb]
      exact hpx
    rw [hnil, List.nil_append]
    have hle := List.length_filter_le
      (fun r => r.material_id == a && r.reviewer_id == b) [rv]
    simpa using hle
  · have hp : (rv.material_id == a && rv.reviewer_id == b) = false := by
      cases hcc : (rv.material_id == a && rv.reviewer_id == b)
      · rfl
      · exfalso
        rw [hmat, hrevr] at hcc
        simp only [Bool.and_eq_true, beq_iff_eq] at hcc
        exact hab ⟨hcc.1.symm, hcc.2.symm⟩
    rw [show List.filter (fun r => r.material_id == a && r.reviewer_id == b) [rv] = [] from by
      simp [List.filter_cons, hp]]
    rw [List.append_nil]
    exact h a b

/-- C6: with a completed purchase on file and an existing review by the
same (user, material) pair, a second `add_review` fails with the duplicate
error and changes nothing; moreover every `add_review` call preserves the
at-most-one-review-per-pair invariant. -/
theorem duplicate_review_rejected (db : DB) (uid mid : Nat) (r : Option Int) (c : String) :
    ((findMaterial db mid).isSome = true → (findPurchaseItem db uid mid).isSome = true →
      (∃ rv ∈ db.reviews, rv.material_id = mid ∧ rv.reviewer_id = uid) →
      add_review db uid mid r c = (ReviewResult.duplicateReview, db))
  ∧ (atMostOneReview db → atMostOneReview (add_review db uid mid r c).2) := by
  constructor
  · intro h1 h2 h3
    obtain ⟨m, hm⟩ := Option.isSome_iff_exists.1 h1
    obtain ⟨oi, hoi⟩ := Option.isSome_iff_exists.1 h2
    have hdup : ∃ rv0, db.reviews.find?
        (fun rv => rv.material_id == mid && rv.reviewer_id == uid) = some rv0 := by
      rw [← Option.isSome_iff_exists, List.find?_isSome]
      obtain ⟨rv, hrvmem, hrv1, hrv2⟩ := h3
      exact ⟨rv, hrvmem, by simp [hrv1, hrv2]⟩
    obtain ⟨rv0, hrv0⟩ := hdup
    unfold add_review
    rw [hm]
    dsimp only
    rw [hoi]
    dsimp only
    rw [hrv0]
  · intro h
    unfold add_review
    cases hfm : findMaterial db mid with
    | none => exact h
    | some material =>
      dsimp only
      cases hpi : findPurchaseItem db uid mid with
      | none => exact h
      | some oi =>
        dsimp only
        cases hdup : db.reviews.find?
            (fun rv => rv.material_id == mid && rv.reviewer_id == uid) with
        | some rv0 => exact h
        | none =>
          dsimp only
          cases r with
          | none => exact h
          | some v =>
            dsimp only
            split
            · exact h
            · exact atMostOne_insert db mid uid _ rfl rfl hdup h

/-- C9: adding the same material to the cart twice is idempotent — the
second call reports it as already present and is a no-op, and the cart
holds the material exactly once. -/
theorem add_to_cart_idempotent (db : DB) (uid mid : Nat) (m : StudyMaterial) (u : User)
    (hm : findMaterial db mid = some m) (hu : findUser db uid = some u)
    (hs : m.seller_id ≠ uid) (hcount : u.cart.count mid ≤ 1) :
    (add_to_cart (add_to_cart db uid mid).2 uid mid).1 = CartResult.alreadyInCart ∧
    (add_to_cart (add_to_cart db uid mid).2 uid mid).2 = (add_to_cart db uid mid).2 ∧
    (cartOf (add_to_cart db uid mid).2 uid).count mid = 1 := by
  have hcart : cartOf db uid = u.cart := by
    unfold cartOf
    rw [hu]
    rfl
  have hsb : (m.seller_id == uid) = false := beq_eq_false_iff_ne.mpr hs
  by_cases hmem : mid ∈ u.cart
  · have h1 : add_to_cart db uid mid = (CartResult.alreadyInCart, db) := by
      unfold add_to_cart
      rw [hm]
      dsimp only
      rw [if_neg (by simp [hsb]), if_pos (by simp [hcart, hmem])]
    rw [h1]
    refine ⟨by rw [h1], by rw [h1], ?_⟩
    rw [hcart]
    have hpos : 0 < u.cart.count mid := List.count_pos_iff.2 hmem
    omega
  · have h1 : add_to_cart db uid mid =
        (CartResult.added,
          updateUser db uid (fun u2 => { u2 with cart := u2.cart ++ [mid] })) := by
      unfold add_to_cart
      rw [hm]
      dsimp only
      rw [if_neg (by simp [hsb]), if_neg (by simp [hcart, hmem])]
    have hcart2 : cartOf
        (updateUser db uid (fun u2 => { u2 with cart := u2.cart ++ [mid] })) uid =
        u.cart ++ [mid] := by
      unfold cartOf
      rw [findUser_updateUser db uid (fun u2 => { u2 with cart := u2.cart ++ [mid] }) uid
        (fun u2 => rfl), hu]
      have hid : u.id = uid := findUser_some_id db uid u hu
      simp [hid]
    have h2 : add_to_cart
        (updateUser db uid (fun u2 => { u2 with cart := u2.cart ++ [mid] })) uid mid =
        (CartResult.alreadyInCart,
          updateUser db uid (fun u2 => { u2 with cart := u2.cart ++ [mid] })) := by
      unfold add_to_cart
      rw [show findMaterial
        (updateUser db uid (fun u2 => { u2 with cart := u2.cart ++ [mid] })) mid
        = some m from hm]
      dsimp only
      rw [if_neg (by simp [hsb]), if_pos (by simp [hcart2])]
    rw [h1]
    refine ⟨by rw [h2], by rw [h2], ?_⟩
    rw [hcart2, List.count_append]
    have h0 : u.cart.count mid = 0 := List.count_eq_zero.2 hmem
    simp [h0]

/-- C10: soft deletion does not gate commerce — for a material whose
`is_active` flag is false, a non-seller can still add it to the cart,
checkout still creates an OrderItem for it and credits its seller 80% of
its price, and an entitled user is still served its file: none of
`add_to_cart`, `checkout`, `download_material` checks `is_active`. -/
theorem inactive_material_still_sold (db : DB) (uid mid : Nat) (m : StudyMaterial) (u : User)
    (hm : findMaterial db mid = some m) (hinact : m.is_active = false)
    (hu : findUser db uid = some u) (hs : m.seller_id ≠ uid) :
    (mid ∉ u.cart → (add_to_cart db uid mid).1 = CartResult.added ∧
      mid ∈ cartOf (add_to_cart db uid mid).2 uid)
  ∧ (∀ hex s, u.cart = [mid] → findUser db m.seller_id = some s →
      (∀ o ∈ db.orders, o.order_number ≠ genOrderNumber hex) →
      ∃ db', checkout db uid hex = Except.ok db' ∧
        (∃ oi ∈ db'.order_items, oi.material_id = mid ∧ oi.order_id = db.next_order_id) ∧
        userEarnings db' m.seller_id = s.total_earnings + m.price * (4 / 5))
  ∧ (has_access db uid mid = true →
      (download_material db uid mid).1 =
        DownloadResult.served m.file_path (m.title ++ "." ++ m.file_type)) := by
  have hcart : cartOf db uid = u.cart := by
    unfold cartOf
    rw [hu]
    rfl
  have hsb : (m.seller_id == uid) = false := beq_eq_false_iff_ne.mpr hs
  refine ⟨?_, ?_, ?_⟩
  · intro hmem
    have h1 : add_to_cart db uid mid =
        (CartResult.added,
          updateUser db uid (fun u2 => { u2 with cart := u2.cart ++ [mid] })) := by
      unfold add_to_cart
      rw [hm]
      dsimp only
      rw [if_neg (by simp [hsb]), if_neg (by simp [hcart, hmem])]
    have hcart2 : cartOf
        (updateUser db uid (fun u2 => { u2 with cart := u2.cart ++ [mid] })) uid =
        u.cart ++ [mid] := by
      unfold cartOf
      rw [findUser_updateUser db uid (fun u2 => { u2 with cart := u2.cart ++ [mid] }) uid
        (fun u2 => rfl), hu]
      have hid : u.id = uid := findUser_some_id db uid u hu
      simp [hid]
    rw [h1]
    exact ⟨rfl, by rw [hcart2]; simp⟩
  · intro hex s hc hsu hno
    have hcm : cartOf db uid = [mid] := by rw [hcart, hc]
    have hcne : cartOf db uid ≠ [] := by rw [hcm]; simp
    refine ⟨checkoutResult db uid hex, checkout_eq_ok db uid hex hcne hno, ?_, ?_⟩
    · have hitems : (checkoutResult db uid hex).order_items =
          db.order_items ++ mkItems db db.next_order_id db.next_order_item_id
            (cartOf db uid) := by
        unfold checkoutResult
        rw [order_items_clearCartStep, processItems_order_items,
          mkItems_congr (pendingAfterOrder db uid hex) db db.next_order_id (fun _ => rfl) _ _]
        rfl
      rw [hcm] at hitems
      refine ⟨{ id := db.next_order_item_id, price := materialPrice db mid,
                order_id := db.next_order_id, material_id := mid, download_count := 0 },
        ?_, rfl, rfl⟩
      rw [hitems]
      simp [mkItems]
    · unfold checkoutResult
      rw [hcm]
      rw [userEarnings_clearCartStep]
      simp only [processItems]
      have hsell : sellerOf
          (bumpStep (addItemStep (pendingAfterOrder db uid hex)
            db.next_order_item_id db.next_order_id mid) mid) mid = m.seller_id := by
        rw [sellerOf_bumpStep, sellerOf_addItemStep]
        show sellerOf db mid = m.seller_id
        unfold sellerOf
        rw [hm]
        rfl
      have hprice : materialPrice
          (bumpStep (addItemStep (pendingAfterOrder db uid hex)
            db.next_order_item_id db.next_order_id mid) mid) mid = m.price := by
        rw [materialPrice_bumpStep, materialPrice_addItemStep]
        show materialPrice db mid = m.price
        unfold materialPrice
        rw [hm]
        rfl
      have hfind : findUser
          (bumpStep (addItemStep (pendingAfterOrder db uid hex)
            db.next_order_item_id db.next_order_id mid) mid)
          (sellerOf (bumpStep (addItemStep (pendingAfterOrder db uid hex)
            db.next_order_item_id db.next_order_id mid) mid) mid) = some s := by
        rw [hsell]
        exact hsu
      have hcredit := userEarnings_creditStep_self
        (bumpStep (addItemStep (pendingAfterOrder db uid hex)
          db.next_order_item_id db.next_order_id mid) mid) mid s hfind
      rw [hprice] at hcredit
      rw [← hsell]
      exact hcredit
  · intro hfa
    unfold has_access at hfa
    rw [hm] at hfa
    rw [Bool.or_eq_true] at hfa
    cases hfa with
    | inl h1 =>
      exfalso
      rw [hsb] at h1
      exact Bool.false_ne_true h1
    | inr h2 =>
      obtain ⟨oi, hoi⟩ := Option.isSome_iff_exists.1 h2
      unfold download_material
      rw [hm]
      dsimp only
      rw [if_neg (by simp [hsb]), hoi]

/-! ### Concrete witnesses -/

theorem checkout_freezes_prices_witness :
    checkout exA 2 "cafebabe" = Except.ok (checkoutResult exA 2 "cafebabe") ∧
    cartOf (checkoutResult exA 2 "cafebabe") 2 = [] := by
  have hok : checkout exA 2 "cafebabe" = Except.ok (checkoutResult exA 2 "cafebabe") :=
    checkout_eq_ok exA 2 "cafebabe" (by decide) (by decide)
  exact ⟨hok, (checkout_freezes_prices exA 2 "cafebabe" _ hok).1⟩

theorem checkout_atomic_witness :
    3 < (checkoutScript exA 2 "cafebabe").length ∧
    checkoutFailingAfter exA 2 "cafebabe" 3 = exA :=
  ⟨by decide, (checkout_atomic exA 2 "cafebabe").1 3 (by decide)⟩

theorem has_access_spec_witness :
    findMaterial exA 10 = some
      { id := 10, title := "Algebra Notes", description := "notes",
        price := 10, file_path := "a.pdf", file_type := "pdf", downloads := 1, rating := 5,
        rating_count := 1, is_active := true, seller_id := 1 } ∧
    has_access exA 1 10 = true := by
  refine ⟨rfl, ?_⟩
  exact (has_access_spec exA 1 10 _ rfl).2.1 rfl

theorem rating_mean_invariant_witness :
    ratingInvariant exCollide ∧
    ratingInvariant (applyReviews exCollide [(2, 10, some 5, "ok")]) := by
  have h : ratingInvariant exCollide := by
    unfold ratingInvariant ratingOk
    decide
  exact ⟨h, (rating_mean_invariant exCollide).2 h [(2, 10, some 5, "ok")]⟩

theorem review_requires_purchase_witness :
    findPurchaseItem exA 1 10 = none ∧
    add_review exA 1 10 (some 4) "mine" = (ReviewResult.notEntitled, exA) := by
  refine ⟨rfl, ?_⟩
  exact review_requires_purchase exA 1 10 (some 4) "mine" _ rfl rfl

theorem duplicate_review_rejected_witness :
    (findMaterial exA 10).isSome = true ∧ (findPurchaseItem exA 2 10).isSome = true ∧
    (∃ rv ∈ exA.reviews, rv.material_id = 10 ∧ rv.reviewer_id = 2) ∧
    add_review exA 2 10 (some 4) "again" = (ReviewResult.duplicateReview, exA) := by
  refine ⟨rfl, rfl,
    ⟨{ id := 300, rating := 5, comment := "great", material_id := 10, reviewer_id := 2,
       seller_id := 1 }, by decide, rfl, rfl⟩, ?_⟩
  exact (duplicate_review_rejected exA 2 10 (some 4) "again").1 rfl rfl
    ⟨{ id := 300, rating := 5, comment := "great", material_id := 10, reviewer_id := 2,
       seller_id := 1 }, by decide, rfl, rfl⟩

theorem order_number_fresh_on_success_witness :
    checkout exA 2 "cafebabe" = Except.ok (checkoutResult exA 2 "cafebabe") ∧
    ∃ o, (checkoutResult exA 2 "cafebabe").orders = exA.orders ++ [o] ∧
      o.order_number = genOrderNumber "cafebabe" ∧
      ∀ o' ∈ exA.orders, o'.order_number ≠ o.order_number := by
  have hok : checkout exA 2 "cafebabe" = Except.ok (checkoutResult exA 2 "cafebabe") :=
    checkout_eq_ok exA 2 "cafebabe" (by decide) (by decide)
  exact ⟨hok, order_number_fresh_on_success exA 2 "cafebabe" _ hok⟩

theorem earnings_monotone_witness :
    (∀ m ∈ exA.materials, 0 ≤ m.price) ∧
    checkout exA 2 "cafebabe" = Except.ok (checkoutResult exA 2 "cafebabe") ∧
    userEarnings exA 1 ≤ userEarnings (checkoutResult exA 2 "cafebabe") 1 := by
  have hnn : ∀ m ∈ exA.materials, 0 ≤ m.price := by decide
  have hok : checkout exA 2 "cafebabe" = Except.ok (checkoutResult exA 2 "cafebabe") :=
    checkout_eq_ok exA 2 "cafebabe" (by decide) (by decide)
  exact ⟨hnn, hok, (earnings_monotone exA).1 2 "cafebabe" _ hnn hok 1⟩

theorem add_to_cart_idempotent_witness :
    findUser exA 2 = some { id := 2, total_earnings := 0, is_admin := false, cart := [10] } ∧
    (1 : Nat) ≠ 2 ∧ (([10] : List Nat).count 10 ≤ 1) ∧
    (cartOf (add_to_cart exA 2 10).2 2).count 10 = 1 := by
  refine ⟨rfl, by decide, by decide, ?_⟩
  exact (add_to_cart_idempotent exA 2 10 _ _ rfl rfl (by decide) (by decide)).2.2

theorem inactive_material_still_sold_witness :
    findMaterial exB 11 = some
      { id := 11, title := "Calculus Notes", description := "notes",
        price := 4, file_path := "b.pdf", file_type := "pdf", downloads := 0, rating := 0,
        rating_count := 0, is_active := false, seller_id := 1 } ∧
    has_access exB 2 11 = true ∧
    (∃ db', checkout exB 2 "cafebabe" = Except.ok db' ∧
      (∃ oi ∈ db'.order_items, oi.material_id = 11 ∧ oi.order_id = exB.next_order_id) ∧
      userEarnings db' 1 = (0 : ℚ) + 4 * (4 / 5)) ∧
    (download_material exB 2 11).1 = DownloadResult.served "b.pdf" "Calculus Notes.pdf" := by
  have happ := inactive_material_still_sold exB 2 11
    { id := 11, title := "Calculus Notes", description := "notes", price := 4,
      file_path := "b.pdf", file_type := "pdf", downloads := 0, rating := 0,
      rating_count := 0, is_active := false, seller_id := 1 }
    { id := 2, total_earnings := 0, is_admin := false, cart := [11] }
    rfl rfl rfl (by decide)
  refine ⟨rfl, rfl, ?_, ?_⟩
  · exact happ.2.1 "cafebabe"
      { id := 1, total_earnings := 0, is_admin := false, cart := [] } rfl rfl (by decide)
  · exact happ.2.2 rfl

end StudySwap
